import Mathlib

set_option maxHeartbeats 1000000

/-!
Shallow embedding of the Astrocusp daily-forecast resolver (utils/daily.ts)
and of the offline planetary ephemeris (project 10/utils/astronomy.ts).

Modelling conventions:
* JavaScript strings are Lean String values (a String is a list of characters);
  case mapping is ASCII (all markers, sign names and keys involved are ASCII).
* JavaScript numbers are rationals; Math.floor is Int.floor and the JavaScript
  remainder operator is truncated division (jsMod below).
* The Supabase backend and the localStorage cache are modelled as explicit
  function parameters (a row store and a key-value cache).
-/

/-! ### Character-level helpers (JS regexp classes and primitives) -/

/-- The JS regular-expression whitespace class (backslash-s). -/
def isJsWs (c : Char) : Bool :=
  c.val = 9 || c.val = 10 || c.val = 11 || c.val = 12 || c.val = 13 ||
  c.val = 32 || c.val = 160 || c.val = 0x1680 ||
  (0x2000 ≤ c.val && c.val ≤ 0x200A) ||
  c.val = 0x2028 || c.val = 0x2029 || c.val = 0x202F || c.val = 0x205F ||
  c.val = 0x3000 || c.val = 0xFEFF

/-- The figure, en, em and horizontal-bar dashes U+2012..U+2015. -/
def isFancyDash (c : Char) : Bool :=
  c.val = 0x2012 || c.val = 0x2013 || c.val = 0x2014 || c.val = 0x2015

/-- The JS word-character class (backslash-w): ASCII alphanumerics and underscore. -/
def isWordChar (c : Char) : Bool := c.isAlphanum || c = '_'

def dropWs (l : List Char) : List Char := l.dropWhile isJsWs

def rdropWs (l : List Char) : List Char := (l.reverse.dropWhile isJsWs).reverse

/-- String.prototype.trim: drop whitespace at both ends. -/
def jsTrimL (l : List Char) : List Char := rdropWs (dropWs l)

/-- Collapse runs of spaces to a single space (used after mapping all
whitespace to a space, which together render replace of backslash-s-plus by a space). -/
def collapseSpaces : List Char → List Char
  | [] => []
  | [c] => [c]
  | a :: b :: t =>
    if a = ' ' && b = ' ' then collapseSpaces (b :: t) else a :: collapseSpaces (b :: t)

/-- s.replace of one-or-more whitespace by a single space, then s.trim (squashSpaces). -/
def squashWsL (l : List Char) : List Char :=
  jsTrimL (collapseSpaces (l.map fun c => if isJsWs c then ' ' else c))

/-- String.prototype.split with a single-character separator. -/
def splitOnChar (c : Char) : List Char → List (List Char)
  | [] => [[]]
  | x :: t =>
    if x = c then [] :: splitOnChar c t
    else
      match splitOnChar c t with
      | [] => [[x]]
      | h :: r => (x :: h) :: r

/-- Array.prototype.join with a single-character separator. -/
def joinWith (c : Char) : List (List Char) → List Char
  | [] => []
  | [p] => p
  | p :: q :: r => p ++ c :: joinWith c (q :: r)

/-- String.prototype.includes: pat occurs as a contiguous substring of the second list. -/
def hasSub (pat : List Char) : List Char → Bool
  | [] => pat.isEmpty
  | c :: t => pat.isPrefixOf (c :: t) || hasSub pat t

/-- Does cusp start here, ending at a word boundary (the list is already lowercased)? -/
def cuspHere : List Char → Bool
  | 'c' :: 'u' :: 's' :: 'p' :: rest =>
    match rest with
    | [] => true
    | d :: _ => !isWordChar d
  | _ => false

/-- Scan for a word-bounded occurrence of cusp; prev is the previous character. -/
def hasCuspWordL : Option Char → List Char → Bool
  | _, [] => false
  | prev, c :: t =>
    ((match prev with
      | none => true
      | some p => !isWordChar p) && cuspHere (c :: t))
    || hasCuspWordL (some c) t

/-! ### String-level wrappers -/

def strLower (s : String) : String := String.mk (s.data.map Char.toLower)

/-- hay.includes(pat). -/
def strContains (hay pat : String) : Bool := hasSub pat.data hay.data

/-- The test of the regular expression word-boundary cusp word-boundary, ignore-case. -/
def hasCuspWord (s : String) : Bool := hasCuspWordL none (s.data.map Char.toLower)

def jsTrim (s : String) : String := String.mk (jsTrimL s.data)

def splitStr (c : Char) (s : String) : List String := (splitOnChar c s.data).map String.mk

def joinStr (c : Char) (ls : List String) : String := String.mk (joinWith c (ls.map String.data))

/-! ### utils/daily.ts - string helpers -/

/-- toTitleCaseWord: first character upper-cased, the rest lower-cased; empty maps to empty. -/
def toTitleCaseWord (w : String) : String :=
  match w.data with
  | [] => ""
  | c :: t => String.mk (c.toUpper :: t.map Char.toLower)

/-- normalizeDashesToHyphen: all figure, en and em dashes become a plain hyphen. -/
def normalizeDashesToHyphen (s : String) : String :=
  String.mk (s.data.map fun c => if isFancyDash c then '-' else c)

/-- squashSpaces: collapse whitespace runs to single spaces and trim. -/
def squashSpaces (s : String) : String := String.mk (squashWsL s.data)

/-- Does the list (with trailing whitespace already removed) end in cusp, ignore-case? -/
def endsWithCuspCI (l : List Char) : Bool :=
  (l.map Char.toLower).reverse.take 4 == ['p', 's', 'u', 'c']

/-- stripTrailingCusp: s.replace of optional-whitespace cusp optional-whitespace at
the end of the string (ignore-case) by the empty string, then s.trim. -/
def stripTrailingCusp (s : String) : String :=
  let r := rdropWs s.data
  if endsWithCuspCI r then String.mk (jsTrimL (rdropWs (r.take (r.length - 4))))
  else String.mk (jsTrimL s.data)

/-- The record returned by normalizeSignForDaily. -/
structure NormalizedSign where
  primaryWithCusp : Option String
  primaryNoCusp : String
  parts : List String
  isCusp : Bool
deriving DecidableEq

/-- normalizeSignForDaily: strict display-friendly normalization of a sign label. -/
def normalizeSignForDaily (input : String) : NormalizedSign :=
  if input = "" then
    { primaryWithCusp := none, primaryNoCusp := "", parts := [], isCusp := false }
  else
    let s := squashSpaces input
    let isCusp := hasCuspWord s
    let hyphenBase := normalizeDashesToHyphen s
    let noCusp := stripTrailingCusp hyphenBase
    let parts :=
      ((splitStr '-' noCusp).map fun part =>
        joinStr ' ' ((splitStr ' ' (jsTrim part)).map toTitleCaseWord)).filter
        fun p => p ≠ ""
    let base := joinStr '-' parts
    { primaryWithCusp := if isCusp then some (base ++ " Cusp") else none,
      primaryNoCusp := base, parts := parts, isCusp := isCusp }

/-- canonSignForCompare: lenient comparison form (lowercase, hyphen, squashed spaces). -/
def canonSignForCompare (s : String) : String :=
  strLower (squashSpaces (normalizeDashesToHyphen s))

def canonSignNoCusp (s : String) : String := canonSignForCompare (stripTrailingCusp s)

/-- Spread of new Set(list): keep the first occurrence of each element, in order. -/
def dedupeAux (seen : List String) : List String → List String
  | [] => []
  | x :: t => if seen.contains x then dedupeAux seen t else x :: dedupeAux (x :: seen) t

def dedupe (l : List String) : List String := dedupeAux [] l

/-- buildSignAttemptsForDaily: sign attempts in strict cusp-first order.  The second
argument is the allowTrueSignFallback option (absent option coerced to false). -/
def buildSignAttemptsForDaily (inputLabel : String) (allowTrueSignFallback : Bool) :
    List String :=
  let n := normalizeSignForDaily inputLabel
  let l1 := match n.primaryWithCusp with
    | some p => if p ≠ "" then [p] else []
    | none => []
  let l2 := if n.primaryNoCusp ≠ "" then [n.primaryNoCusp] else []
  let l3 := if !n.isCusp || allowTrueSignFallback then n.parts.filter (fun p => p ≠ "") else []
  (dedupe (l1 ++ l2 ++ l3)).filter fun s => s ≠ ""

/-! ### utils/daily.ts - Halloween scrubbers -/

def HALLOWEEN_MARKERS : List String :=
  ["halloween", "samhain", "veil walker", "pumpkin", "thinning veil"]

/-- Does some denylisted marker occur in the line (case-insensitive substring)? -/
def lineHasMarker (line : String) : Bool :=
  HALLOWEEN_MARKERS.any fun m => strContains (strLower line) m

def splitLines (s : String) : List String := splitStr '\n' s

def joinLines (ls : List String) : String := joinStr '\n' ls

/-- stripHalloweenLines: drop every line containing a denylisted marker, keep the rest. -/
def stripHalloweenLines (text : String) : String :=
  if text = "" then ""
  else jsTrim (joinLines ((splitLines text).filter fun line => !lineHasMarker line))

/-- sanitizeUserFacingText: normalize dashes, purge halloween lines, trim. -/
def sanitizeUserFacingText (s : String) : String :=
  jsTrim (stripHalloweenLines (normalizeDashesToHyphen s))

/-! ### utils/daily.ts - hemisphere, cache and rows -/

/-- hemiToDB: map any hemisphere spelling to the database form. -/
def hemiToDB (hemi : String) : String :=
  let v := strLower (if hemi = "" then "Southern" else hemi)
  if v = "northern" || v = "nh" then "Northern" else "Southern"

def CACHE_VERSION : String := "v3"

/-- cacheKeyDaily: versioned cache key; an absent user id becomes anon. -/
def cacheKeyDaily (userId : Option String) (sign hemi ymd : String) : String :=
  CACHE_VERSION ++ ":daily:" ++ userId.getD "anon" ++ ":" ++ sign ++ ":" ++ hemi ++ ":" ++ ymd

/-- A row of the horoscope content table, as used by the resolver. -/
structure DailyRow where
  sign : String
  hemisphere : String
  date : String
  daily_horoscope : String
  affirmation : String
  deeper_insight : String
  sourceTable : Option String := none
deriving DecidableEq

/-- rowMatchesSign: exact or cusp-stripped equivalence of canonical forms. -/
def rowMatchesSign (rowSign candidate : String) : Bool :=
  if rowSign = "" || candidate = "" then false
  else
    let canRow := canonSignForCompare rowSign
    let canRowNoCusp := canonSignNoCusp rowSign
    let canCand := canonSignForCompare candidate
    let canCandNoCusp := canonSignNoCusp candidate
    (canRow == canCand) || (canRow == canCandNoCusp) ||
    (canRowNoCusp == canCand) || (canRowNoCusp == canCandNoCusp)

/-- The three user-facing text fields passed through sanitizeUserFacingText
(this is what both the cache-hit path and the store path do before returning). -/
def sanitizeRowFields (r : DailyRow) : DailyRow :=
  { r with
    daily_horoscope := sanitizeUserFacingText r.daily_horoscope,
    affirmation := sanitizeUserFacingText r.affirmation,
    deeper_insight := sanitizeUserFacingText r.deeper_insight }

/-- A raw row as selected from the horoscope_cache table (text fields may be null). -/
structure RawDailyRow where
  sign : String
  hemisphere : String
  date : String
  daily_horoscope : Option String
  affirmation : Option String
  deeper_insight : Option String
deriving DecidableEq

/-- The shape of a Supabase reply: data may be null, or an error may be set. -/
structure StoreReply where
  data : Option (List RawDailyRow)
  error : Option String
deriving DecidableEq

/-- The backing store, indexed by date and hemisphere (the two eq filters
of the query in fetchRowsForDate). -/
def Store : Type := String → String → StoreReply

/-- fetchRowsForDate: all rows for a date and hemisphere; on error, no rows and
the error; otherwise the mapped rows and no error. -/
def fetchRowsForDate (store : Store) (date : String) (hemi : String) :
    List DailyRow × Option String :=
  let reply := store date hemi
  match reply.error with
  | some e => ([], some e)
  | none =>
    ((reply.data.getD []).map fun r =>
      { sign := r.sign, hemisphere := r.hemisphere, date := r.date,
        daily_horoscope := r.daily_horoscope.getD "",
        affirmation := r.affirmation.getD "",
        deeper_insight := r.deeper_insight.getD "",
        sourceTable := some "horoscope_cache" }, none)

/-- The localStorage cache: stored row under a key, if present and well-formed. -/
def Cache : Type := String → Option DailyRow

/-- The options record of getDailyForecast (the debug flag only logs and is omitted). -/
structure DailyOpts where
  userId : Option String := none
  forceDate : Option String := none
  useCache : Option Bool := none
  allowTrueSignFallback : Option Bool := none
deriving DecidableEq

/-- The cache-first pass of getDailyForecast: anchors outer, sign attempts inner;
a hit must agree on date, hemisphere and sign, and is scrubbed before returning. -/
def cachePass (cache : Cache) (userId : Option String) (signAttempts : List String)
    (hemi : String) (anchors : List String) : Option DailyRow :=
  anchors.findSome? fun dateStr =>
    signAttempts.findSome? fun s =>
      match cache (cacheKeyDaily userId s hemi dateStr) with
      | some cached =>
        if cached.date = dateStr ∧ cached.hemisphere = hemi ∧ cached.sign = s then
          some (sanitizeRowFields cached)
        else none
      | none => none

/-- One date anchor of the DB pass of getDailyForecast: on error continue (none);
with zero rows continue (none); otherwise the first candidate with a matching row,
sanitized, wins. -/
def tryAnchorDb (store : Store) (signAttempts : List String) (hemi : String)
    (dateStr : String) : Option DailyRow :=
  let fetched := fetchRowsForDate store dateStr hemi
  match fetched.2 with
  | some _ => none
  | none =>
    let rows := fetched.1
    if rows.isEmpty then none
    else
      signAttempts.findSome? fun cand =>
        (rows.find? fun r => rowMatchesSign r.sign cand).map sanitizeRowFields

/-- The DB pass of getDailyForecast over the anchor list. -/
def dbPass (store : Store) (signAttempts : List String) (hemi : String)
    (anchors : List String) : Option DailyRow :=
  anchors.findSome? (tryAnchorDb store signAttempts hemi)

/-- getDailyForecast.  Time-zone-dependent anchor generation (buildDailyAnchors on
the current instant) is ambient runtime state, passed in as dailyAnchors; a
non-empty forceDate overrides it entirely (JS truthiness: the empty string does not). -/
def getDailyForecast (cache : Cache) (store : Store) (dailyAnchors : List String)
    (signIn : String) (hemisphereIn : String) (opts : DailyOpts) : Option DailyRow :=
  let hemi := hemiToDB hemisphereIn
  let anchors := match opts.forceDate with
    | some d => if d ≠ "" then [d] else dailyAnchors
    | none => dailyAnchors
  let signAttempts := buildSignAttemptsForDaily signIn (opts.allowTrueSignFallback.getD false)
  let fromCache :=
    if opts.useCache ≠ some false then cachePass cache opts.userId signAttempts hemi anchors
    else none
  match fromCache with
  | some r => some r
  | none => dbPass store signAttempts hemi anchors

/-! ### utils/daily.ts - getAccessibleHoroscope -/

/-- The fields of the user object read by getAccessibleHoroscope (absent fields none). -/
structure User where
  hemisphere : Option String := none
  cuspName : Option String := none
  primarySign : Option String := none
  preferredSign : Option String := none
  id : Option String := none
  email : Option String := none
deriving DecidableEq

/-- JS a or-else b where a is an optional string and the empty string is falsy. -/
def jsOrStr (a : Option String) (b : String) : String :=
  match a with
  | some s => if s ≠ "" then s else b
  | none => b

/-- The hemisphere passed to getDailyForecast by the wrapper. -/
def accessibleHemisphere (u : User) : String :=
  match u.hemisphere with
  | some h => if h = "NH" || h = "SH" then h else if h ≠ "" then h else "Southern"
  | none => "Southern"

/-- The sign label: cuspResult.cuspName, else cuspResult.primarySign, else
preferred_sign, else the empty string (JS or-chain). -/
def accessibleSignLabel (u : User) : String :=
  jsOrStr u.cuspName (jsOrStr u.primarySign (jsOrStr u.preferredSign ""))

/-- The userId passed down: user.id or-else user.email. -/
def accessibleUserId (u : User) : Option String :=
  match u.id with
  | some s => if s ≠ "" then some s else u.email
  | none => u.email

/-- The options of getAccessibleHoroscope (debug only logs and is omitted;
useCache is accepted but never forwarded by the source). -/
structure AccessOpts where
  forceDate : Option String := none
  useCache : Option Bool := none
deriving DecidableEq

/-- The record returned by getAccessibleHoroscope. -/
structure AccessibleHoroscope where
  date : String
  sign : String
  hemisphere : String
  daily : String
  affirmation : String
  deeper : String
  raw : DailyRow
deriving DecidableEq

/-- The final defensive scrub on the way out of getAccessibleHoroscope. -/
def accessiblePost (row : DailyRow) : AccessibleHoroscope :=
  { date := row.date, sign := row.sign, hemisphere := row.hemisphere,
    daily := sanitizeUserFacingText row.daily_horoscope,
    affirmation := sanitizeUserFacingText row.affirmation,
    deeper := sanitizeUserFacingText row.deeper_insight,
    raw := row }

/-- getAccessibleHoroscope: convenience wrapper for screens.  It hardcodes
useCache false and permissive fallback exactly for non-cusp labels. -/
def getAccessibleHoroscope (cache : Cache) (store : Store) (dailyAnchors : List String)
    (user : User) (opts : AccessOpts) : Option AccessibleHoroscope :=
  let hemisphere := accessibleHemisphere user
  let signLabel := accessibleSignLabel user
  let isCuspInput := hasCuspWord signLabel
  match getDailyForecast cache store dailyAnchors signLabel hemisphere
      { userId := accessibleUserId user, forceDate := opts.forceDate,
        useCache := some false,
        allowTrueSignFallback := some (if !isCuspInput then true else false) } with
  | none => none
  | some row => some (accessiblePost row)

/-! ### project 10/utils/astronomy.ts - ephemeris helpers

JavaScript numbers are modelled as rationals.  The trigonometric part of the
pipeline (solveKepler, heliocentricXYZ and the atan2 in geocentricLongitude)
is real-valued and transcendental; it is abstracted as a parameter lonRaw
giving the un-normalized longitude atan2(Y, X) * R2D for a planet and date,
while the final normalization norm360 of geocentricLongitude, sign/degree
mapping and retrograde test are embedded exactly. -/

/-- The floor of a rational, in executable form (numerator divided by denominator
with integer division); equal to Int.floor by ratFloor_eq below. -/
def ratFloor (q : ℚ) : Int := q.num / q.den

/-- JS truncated conversion to an integer (rounding toward zero), as used by
the remainder operator. -/
def jsTrunc (q : ℚ) : Int := if 0 ≤ q then ratFloor q else -ratFloor (-q)

/-- The JS remainder operator a % b (sign follows the dividend). -/
def jsMod (a b : ℚ) : ℚ := a - b * (jsTrunc (a / b) : ℚ)

/-- Math.round: nearest integer, ties toward positive infinity. -/
def mathRound (q : ℚ) : Int := ratFloor (q + 1 / 2)

/-- norm360: ((x % 360) + 360) % 360. -/
def norm360 (x : ℚ) : ℚ := jsMod (jsMod x 360 + 360) 360

def ZODIAC_SIGNS_ARRAY : List String :=
  ["Aries", "Taurus", "Gemini", "Cancer", "Leo", "Virgo",
   "Libra", "Scorpio", "Sagittarius", "Capricorn", "Aquarius", "Pisces"]

/-- lonToSignAndDegree: sign from floor(L / 30) into the fixed 12-sign table,
degree the remainder within the sign rounded to 2 decimal places. -/
def lonToSignAndDegree (lon : ℚ) : String × ℚ :=
  let L := norm360 lon
  let signIndex : Int := ratFloor (L / 30)
  let degree : ℚ := (mathRound ((L - signIndex * 30) * 100) : ℚ) / 100
  (ZODIAC_SIGNS_ARRAY.getD signIndex.toNat "", degree)

/-- A planetary position as produced by the ephemeris. -/
structure PlanetaryPosition where
  planet : String
  sign : String
  degree : ℚ
  retrograde : Bool
deriving DecidableEq

/-- The raw (pre-normalization) geocentric longitude pipeline, abstracted:
for a planet name and a date (milliseconds), the value atan2(Y, X) * R2D. -/
def LonRaw : Type := String → ℚ → ℚ

/-- geocentricLongitude: the raw longitude normalized into the interval from 0 to 360. -/
def geocentricLongitude (lonRaw : LonRaw) (planet : String) (d : ℚ) : ℚ :=
  norm360 (lonRaw planet d)

/-- One calendar day in milliseconds, as added by new Date(d.getTime() + 86400000). -/
def DAY_MS : ℚ := 86400000

/-- isRetrograde: the signed one-day longitude delta, folded into the interval
from -180 to 180 by ((lon2 - lon1 + 540) % 360) - 180, is negative. -/
def isRetrograde (lonRaw : LonRaw) (planet : String) (d : ℚ) : Bool :=
  let lon1 := geocentricLongitude lonRaw planet d
  let lon2 := geocentricLongitude lonRaw planet (d + DAY_MS)
  let delta := jsMod (lon2 - lon1 + 540) 360 - 180
  decide (delta < 0)

def PLANET_NAMES : List String := ["Mercury", "Venus", "Mars", "Jupiter", "Saturn"]

/-- getPlanetaryPositionsApprox: one entry per tracked planet. -/
def getPlanetaryPositionsApprox (lonRaw : LonRaw) (d : ℚ) : List PlanetaryPosition :=
  PLANET_NAMES.map fun name =>
    let lon := geocentricLongitude lonRaw name d
    let sd := lonToSignAndDegree lon
    { planet := name, sign := sd.1, degree := sd.2, retrograde := isRetrograde lonRaw name d }

/-- Modelled from the spec: the signed angular difference normalized into the
half-open interval from -180 (inclusive) to 180 (exclusive).  This is the
specification-side normalization against which the code's delta is compared. -/
def normAngleSpec (x : ℚ) : ℚ := x - 360 * ⌊(x + 180) / 360⌋

/-! ### General helper lemmas -/

theorem mk_data (s : String) : String.mk s.data = s := by
  cases s
  rfl

theorem ratFloor_eq (q : ℚ) : ratFloor q = ⌊q⌋ := Rat.floor_def.symm

theorem ratFloor_eval (q : ℚ) (n : ℤ) (h1 : (n : ℚ) ≤ q) (h2 : q < n + 1) :
    ratFloor q = n := by
  rw [ratFloor_eq]
  exact Int.floor_eq_iff.mpr ⟨h1, h2⟩

theorem jsTrunc_of_nonneg (q : ℚ) (h : 0 ≤ q) : jsTrunc q = ⌊q⌋ := by
  simp [jsTrunc, h, ratFloor_eq]

theorem jsMod_of_nonneg (a b : ℚ) (ha : 0 ≤ a) (hb : 0 < b) :
    jsMod a b = a - b * ⌊a / b⌋ := by
  rw [jsMod, jsTrunc_of_nonneg]
  positivity

theorem jsMod_nonneg_bounds (a b : ℚ) (ha : 0 ≤ a) (hb : 0 < b) :
    0 ≤ jsMod a b ∧ jsMod a b < b := by
  rw [jsMod_of_nonneg a b ha hb]
  constructor
  · have hf : (⌊a / b⌋ : ℚ) ≤ a / b := Int.floor_le (a / b)
    have := mul_le_mul_of_nonneg_left hf (le_of_lt hb)
    rw [mul_div_cancel₀ a (ne_of_gt hb)] at this
    linarith
  · have hf : a / b < ⌊a / b⌋ + 1 := Int.lt_floor_add_one (a / b)
    have := mul_lt_mul_of_pos_left hf hb
    rw [mul_div_cancel₀ a (ne_of_gt hb)] at this
    linarith

theorem jsMod_neg_bounds (a b : ℚ) (ha : a < 0) (hb : 0 < b) :
    -b < jsMod a b ∧ jsMod a b ≤ 0 := by
  have hq : ¬(0 ≤ a / b) := by
    intro h
    have := mul_le_mul_of_nonneg_left h (le_of_lt hb)
    rw [mul_div_cancel₀ a (ne_of_gt hb), mul_zero] at this
    linarith
  rw [jsMod, jsTrunc, if_neg (by simpa [div_nonneg_iff] using hq), ratFloor_eq]
  have h1 : (⌊-a / b⌋ : ℚ) ≤ -a / b := by
    have := Int.floor_le (-a / b)
    simpa using this
  have h2 : -a / b < ⌊-a / b⌋ + 1 := Int.lt_floor_add_one (-a / b)
  have hm1 := mul_le_mul_of_nonneg_left h1 (le_of_lt hb)
  have hm2 := mul_lt_mul_of_pos_left h2 hb
  rw [mul_div_cancel₀ (-a) (ne_of_gt hb)] at hm1 hm2
  rw [neg_div] at *
  constructor <;> [skip; skip] <;> push_cast <;> nlinarith

theorem norm360_bounds (x : ℚ) : 0 ≤ norm360 x ∧ norm360 x < 360 := by
  have h360 : (0 : ℚ) < 360 := by norm_num
  have hinner : -360 < jsMod x 360 ∧ jsMod x 360 < 360 := by
    rcases lt_or_le x 0 with hx | hx
    · have := jsMod_neg_bounds x 360 hx h360
      exact ⟨this.1, lt_of_le_of_lt this.2 h360⟩
    · have := jsMod_nonneg_bounds x 360 hx h360
      exact ⟨lt_of_lt_of_le (by norm_num) this.1, this.2⟩
  have hsum : 0 ≤ jsMod x 360 + 360 := by linarith [hinner.1]
  exact jsMod_nonneg_bounds _ 360 hsum h360

theorem norm360_of_bounds (x : ℚ) (h0 : 0 ≤ x) (h1 : x < 360) : norm360 x = x := by
  have h360 : (0 : ℚ) < 360 := by norm_num
  have e1 : jsMod x 360 = x := by
    rw [jsMod_of_nonneg x 360 h0 h360]
    have : ⌊x / 360⌋ = 0 := by
      rw [Int.floor_eq_zero_iff]
      constructor
      · positivity
      · rw [div_lt_one h360] at *
        simpa using h1
    rw [this]
    ring
  rw [norm360, e1]
  rw [jsMod_of_nonneg _ 360 (by linarith) h360]
  have : ⌊(x + 360) / 360⌋ = 1 := by
    rw [Int.floor_eq_iff]
    constructor
    · rw [le_div_iff₀ h360]
      push_cast
      linarith
    · rw [div_lt_iff₀ h360]
      push_cast
      linarith
  rw [this]
  ring

/-! ### List and string helper lemmas -/

theorem findSome?_cons_eq (f : α → Option β) (a : α) (l : List α) :
    List.findSome? f (a :: l) =
      match f a with
      | some b => some b
      | none => List.findSome? f l := by
  cases h : f a <;> simp [List.findSome?_cons, h]

theorem exists_of_findSome?_eq_some (f : α → Option β) (l : List α) (b : β)
    (h : l.findSome? f = some b) : ∃ a, a ∈ l ∧ f a = some b := by
  induction l with
  | nil => simp [List.findSome?] at h
  | cons x t ih =>
    rw [List.findSome?_cons] at h
    cases hx : f x with
    | some v =>
      rw [hx] at h
      exact ⟨x, List.mem_cons_self x t, hx.trans h⟩
    | none =>
      rw [hx] at h
      obtain ⟨a, ha, hfa⟩ := ih h
      exact ⟨a, List.mem_cons_of_mem _ ha, hfa⟩

theorem findSome?_eq_none_of_all (f : α → Option β) (l : List α)
    (h : ∀ a ∈ l, f a = none) : l.findSome? f = none := by
  induction l with
  | nil => rfl
  | cons x t ih =>
    rw [List.findSome?_cons, h x (List.mem_cons_self x t)]
    exact ih fun a ha => h a (List.mem_cons_of_mem _ ha)

theorem splitOnChar_ne_nil (c : Char) (l : List Char) : splitOnChar c l ≠ [] := by
  cases l with
  | nil => simp [splitOnChar]
  | cons x t =>
    rw [splitOnChar]
    by_cases h : x = c
    · simp [h]
    · simp only [if_neg h]
      cases splitOnChar c t <;> simp

theorem not_mem_of_mem_splitOnChar (c : Char) (l : List Char) (piece : List Char)
    (h : piece ∈ splitOnChar c l) : c ∉ piece := by
  induction l generalizing piece with
  | nil =>
    simp [splitOnChar] at h
    simp [h]
  | cons x t ih =>
    rw [splitOnChar] at h
    by_cases hx : x = c
    · rw [if_pos hx] at h
      rcases List.mem_cons.mp h with h1 | h1
      · simp [h1]
      · exact ih piece h1
    · rw [if_neg hx] at h
      rcases hsp : splitOnChar c t with _ | ⟨p, r⟩
      · exact absurd hsp (splitOnChar_ne_nil c t)
      · rw [hsp] at h
        rcases List.mem_cons.mp h with h1 | h1
        · subst h1
          intro hmem
          rcases List.mem_cons.mp hmem with h2 | h2
          · exact hx h2.symm
          · exact ih p (by rw [hsp]; exact List.mem_cons_self p r) h2
        · exact ih piece (by rw [hsp]; exact List.mem_cons_of_mem p h1)

theorem joinWith_splitOnChar (c : Char) (l : List Char) :
    joinWith c (splitOnChar c l) = l := by
  induction l with
  | nil => rfl
  | cons x t ih =>
    rw [splitOnChar]
    by_cases hx : x = c
    · rw [if_pos hx]
      subst hx
      rcases hsp : splitOnChar x t with _ | ⟨p, r⟩
      · exact absurd hsp (splitOnChar_ne_nil x t)
      · rw [joinWith]
        rw [hsp] at ih
        rw [← hsp] at ih ⊢
        rw [hsp]
        simpa [hsp] using congrArg (x :: ·) ih
    · rw [if_neg hx]
      rcases hsp : splitOnChar c t with _ | ⟨p, r⟩
      · exact absurd hsp (splitOnChar_ne_nil c t)
      · rw [hsp] at ih
        cases r with
        | nil => simpa [joinWith] using congrArg (x :: ·) ih
        | cons q r2 =>
          rw [joinWith]
          rw [joinWith] at ih
          simpa using congrArg (x :: ·) ih

theorem splitOnChar_of_not_mem (c : Char) (l : List Char) (h : c ∉ l) :
    splitOnChar c l = [l] := by
  induction l with
  | nil => rfl
  | cons x t ih =>
    have hx : x ≠ c := by
      intro hc
      subst hc
      exact h (List.mem_cons_self x t)
    rw [splitOnChar, if_neg hx]
    rw [ih fun hc => h (List.mem_cons_of_mem x hc)]

theorem splitOnChar_append (c : Char) (p rest : List Char) (h : c ∉ p) :
    splitOnChar c (p ++ c :: rest) = p :: splitOnChar c rest := by
  induction p with
  | nil => simp [splitOnChar]
  | cons x t ih =>
    have hx : x ≠ c := by
      intro hc
      subst hc
      exact h (List.mem_cons_self x t)
    rw [List.cons_append, splitOnChar, if_neg hx,
      ih fun hc => h (List.mem_cons_of_mem x hc)]

theorem splitOnChar_joinWith (c : Char) (ps : List (List Char)) (hne : ps ≠ [])
    (h : ∀ p ∈ ps, c ∉ p) : splitOnChar c (joinWith c ps) = ps := by
  induction ps with
  | nil => exact absurd rfl hne
  | cons p r ih =>
    cases r with
    | nil =>
      rw [joinWith]
      exact splitOnChar_of_not_mem c p (h p (List.mem_cons_self p []))
    | cons q r2 =>
      rw [joinWith, splitOnChar_append c p _ (h p (List.mem_cons_self p _))]
      rw [ih (by simp) fun x hx => h x (List.mem_cons_of_mem p hx)]

theorem dropWhile_idem (p : α → Bool) (l : List α) :
    (l.dropWhile p).dropWhile p = l.dropWhile p := by
  induction l with
  | nil => rfl
  | cons a t ih =>
    by_cases h : p a
    · simp [List.dropWhile_cons, h, ih]
    · simp [List.dropWhile_cons, h]

theorem dropWhile_eq_self_of_prefix (p : α → Bool) (x y : List α) (hp : x <+: y)
    (hy : y.dropWhile p = y) : x.dropWhile p = x := by
  cases x with
  | nil => rfl
  | cons a t =>
    obtain ⟨rest, hrest⟩ := hp
    have hpa : p a = false := by
      by_contra hcon
      have hpa' : p a = true := by
        cases hval : p a
        · exact absurd hval hcon
        · rfl
      have hy2 : y.dropWhile p = ((a :: t) ++ rest).dropWhile p := by rw [hrest]
      rw [List.cons_append, List.dropWhile_cons, if_pos hpa'] at hy2
      have hlen : ((t ++ rest).dropWhile p).length ≤ (t ++ rest).length :=
        (List.dropWhile_suffix p).length_le
      rw [hy, ← hrest] at hy2
      have : (a :: (t ++ rest)).length ≤ (t ++ rest).length := by
        rw [List.cons_append] at hrest
        rw [← hy2] at hlen
        simpa [hrest] using hlen
      simp at this
    rw [List.dropWhile_cons, if_neg (by simp [hpa])]

theorem rdropWs_front (l : List Char) : rdropWs l <+: l := by
  have h : List.dropWhile isJsWs l.reverse <:+ l.reverse := List.dropWhile_suffix isJsWs
  have h2 := List.reverse_prefix.mpr h
  simpa [rdropWs] using h2

theorem dropWs_idem (l : List Char) : dropWs (dropWs l) = dropWs l :=
  dropWhile_idem isJsWs l

theorem rdropWs_idem (l : List Char) : rdropWs (rdropWs l) = rdropWs l := by
  simp [rdropWs, List.reverse_reverse, dropWhile_idem]

theorem dropWs_rdropWs_of_clean (l : List Char) (h : dropWs l = l) :
    dropWs (rdropWs l) = rdropWs l :=
  dropWhile_eq_self_of_prefix isJsWs (rdropWs l) l (rdropWs_front l) h

theorem jsTrimL_idem (l : List Char) : jsTrimL (jsTrimL l) = jsTrimL l := by
  rw [jsTrimL, jsTrimL, dropWs_rdropWs_of_clean (dropWs l) (dropWs_idem l), rdropWs_idem]

theorem jsTrim_idem (s : String) : jsTrim (jsTrim s) = jsTrim s := by
  rw [jsTrim, jsTrim, jsTrimL_idem]

/-! ### Resolver helper lemmas -/

theorem cachePass_eq_none (cache : Cache) (uid : Option String) (attempts : List String)
    (hemi : String) (anchors : List String) (h : ∀ k, cache k = none) :
    cachePass cache uid attempts hemi anchors = none := by
  apply findSome?_eq_none_of_all
  intro a _
  apply findSome?_eq_none_of_all
  intro s _
  simp [h]

theorem getDailyForecast_eq_dbPass (cache : Cache) (store : Store)
    (dailyAnchors : List String) (signIn hemisphereIn : String) (uid : Option String)
    (uc fb : Option Bool) (h : ∀ k, cache k = none) :
    getDailyForecast cache store dailyAnchors signIn hemisphereIn
      { userId := uid, forceDate := none, useCache := uc, allowTrueSignFallback := fb } =
    dbPass store (buildSignAttemptsForDaily signIn (fb.getD false)) (hemiToDB hemisphereIn)
      dailyAnchors := by
  rw [getDailyForecast]
  by_cases huc : uc ≠ some false
  · simp [huc, cachePass_eq_none _ _ _ _ _ h]
  · simp [huc]

theorem dbPass_nil (store : Store) (attempts : List String) (hemi : String) :
    dbPass store attempts hemi [] = none := rfl

theorem dbPass_cons (store : Store) (attempts : List String) (hemi : String)
    (d : String) (rest : List String) :
    dbPass store attempts hemi (d :: rest) =
      match tryAnchorDb store attempts hemi d with
      | some r => some r
      | none => dbPass store attempts hemi rest := by
  cases h : tryAnchorDb store attempts hemi d <;> simp [dbPass, List.findSome?_cons, h]

theorem tryAnchorDb_of_error (store : Store) (attempts : List String) (hemi d e : String)
    (h : (store d hemi).error = some e) : tryAnchorDb store attempts hemi d = none := by
  simp [tryAnchorDb, fetchRowsForDate, h]

theorem tryAnchorDb_of_no_rows (store : Store) (attempts : List String) (hemi d : String)
    (h : fetchRowsForDate store d hemi = ([], none)) :
    tryAnchorDb store attempts hemi d = none := by
  simp [tryAnchorDb, h]

theorem cachePass_sanitized (cache : Cache) (uid : Option String) (attempts : List String)
    (hemi : String) (anchors : List String) (r : DailyRow)
    (h : cachePass cache uid attempts hemi anchors = some r) :
    ∃ r0, r = sanitizeRowFields r0 := by
  obtain ⟨a, _, ha⟩ := exists_of_findSome?_eq_some _ _ _ h
  obtain ⟨s, _, hs⟩ := exists_of_findSome?_eq_some _ _ _ ha
  cases hc : cache (cacheKeyDaily uid s hemi a) with
  | none => rw [hc] at hs; exact absurd hs (by simp)
  | some cached =>
    rw [hc] at hs
    have hs2 : (if cached.date = a ∧ cached.hemisphere = hemi ∧ cached.sign = s
        then some (sanitizeRowFields cached) else none) = some r := hs
    by_cases hcond : cached.date = a ∧ cached.hemisphere = hemi ∧ cached.sign = s
    · rw [if_pos hcond] at hs2
      injection hs2 with hsr
      exact ⟨cached, hsr.symm⟩
    · rw [if_neg hcond] at hs2
      exact absurd hs2 (by simp)

theorem dbPass_sanitized (store : Store) (attempts : List String) (hemi : String)
    (anchors : List String) (r : DailyRow)
    (h : dbPass store attempts hemi anchors = some r) :
    ∃ r0, r = sanitizeRowFields r0 := by
  obtain ⟨a, _, ha⟩ := exists_of_findSome?_eq_some _ _ _ h
  rw [tryAnchorDb] at ha
  rcases herr : (fetchRowsForDate store a hemi).2 with _ | e
  · rw [herr] at ha
    simp only [] at ha
    by_cases hempty : (fetchRowsForDate store a hemi).1.isEmpty
    · rw [if_pos hempty] at ha
      exact absurd ha (by simp)
    · rw [if_neg hempty] at ha
      obtain ⟨cand, _, hcand⟩ := exists_of_findSome?_eq_some _ _ _ ha
      obtain ⟨row, _, hrow⟩ := Option.map_eq_some'.mp hcand
      exact ⟨row, hrow.symm⟩
  · rw [herr] at ha
    exact absurd ha (by simp)

theorem getDailyForecast_sanitized (cache : Cache) (store : Store)
    (dailyAnchors : List String) (signIn hemisphereIn : String) (opts : DailyOpts)
    (r : DailyRow)
    (h : getDailyForecast cache store dailyAnchors signIn hemisphereIn opts = some r) :
    ∃ r0, r = sanitizeRowFields r0 := by
  simp only [getDailyForecast] at h
  split at h
  next r2 heq =>
    injection h with h2
    subst h2
    split at heq
    · exact cachePass_sanitized _ _ _ _ _ _ heq
    · exact absurd heq (by simp)
  next heq =>
    exact dbPass_sanitized _ _ _ _ _ h

/-! ### Claim theorems: ephemeris (C2, C4) -/

theorem getD_mem_of_lt (l : List α) (n : Nat) (dflt : α) (h : n < l.length) :
    l.getD n dflt ∈ l := by
  induction l generalizing n with
  | nil => simp at h
  | cons a t ih =>
    cases n with
    | zero => simp [List.getD]
    | succ m =>
      simp only [List.getD_cons_succ]
      exact List.mem_cons_of_mem a (ih m (by simpa using h))

/-- Claim C2 (amended form): for every date the ephemeris returns exactly five
entries, one per tracked planet in order, each entry carrying the sign and
degree of the sign/degree mapping of its geocentric longitude; and for every
longitude the sign is one of the fixed 12 names and the degree lies in the
closed interval from 0 to 30 (the upper end 30 is attainable by rounding). -/
theorem getPlanetaryPositionsApprox_shape (lonRaw : LonRaw) (d : ℚ) :
    (getPlanetaryPositionsApprox lonRaw d).map PlanetaryPosition.planet = PLANET_NAMES ∧
    (getPlanetaryPositionsApprox lonRaw d).map (fun p => (p.sign, p.degree)) =
      PLANET_NAMES.map (fun n => lonToSignAndDegree (geocentricLongitude lonRaw n d)) ∧
    ∀ lon : ℚ, (lonToSignAndDegree lon).1 ∈ ZODIAC_SIGNS_ARRAY ∧
      0 ≤ (lonToSignAndDegree lon).2 ∧ (lonToSignAndDegree lon).2 ≤ 30 := by
  refine ⟨by simp [getPlanetaryPositionsApprox, PLANET_NAMES], by
    simp [getPlanetaryPositionsApprox, PLANET_NAMES], ?_⟩
  intro lon
  have hL := norm360_bounds lon
  have hidx : ratFloor (norm360 lon / 30) = ⌊norm360 lon / 30⌋ := ratFloor_eq _
  have hnn : (0 : ℤ) ≤ ⌊norm360 lon / 30⌋ :=
    Int.floor_nonneg.mpr (div_nonneg hL.1 (by norm_num))
  have hlt : ⌊norm360 lon / 30⌋ < 12 := by
    rw [Int.floor_lt]
    rw [div_lt_iff₀ (by norm_num : (0:ℚ) < 30)]
    push_cast
    linarith [hL.2]
  have hfl : (⌊norm360 lon / 30⌋ : ℚ) ≤ norm360 lon / 30 := Int.floor_le _
  have hfu : norm360 lon / 30 < ⌊norm360 lon / 30⌋ + 1 := Int.lt_floor_add_one _
  have hml := mul_le_mul_of_nonneg_left hfl (by norm_num : (0:ℚ) ≤ 30)
  have hmu := mul_lt_mul_of_pos_left hfu (by norm_num : (0:ℚ) < 30)
  rw [mul_div_cancel₀ (norm360 lon) (by norm_num : (30:ℚ) ≠ 0)] at hml hmu
  have hfrac0 : 0 ≤ norm360 lon - (⌊norm360 lon / 30⌋ : ℚ) * 30 := by linarith
  have hfrac1 : norm360 lon - (⌊norm360 lon / 30⌋ : ℚ) * 30 < 30 := by linarith
  refine ⟨?_, ?_, ?_⟩
  · show ZODIAC_SIGNS_ARRAY.getD (ratFloor (norm360 lon / 30)).toNat "" ∈ ZODIAC_SIGNS_ARRAY
    apply getD_mem_of_lt
    rw [hidx]
    show (⌊norm360 lon / 30⌋).toNat < 12
    omega
  · show (0 : ℚ) ≤ (mathRound ((norm360 lon - (ratFloor (norm360 lon / 30) : ℚ) * 30) * 100) : ℚ) / 100
    have h0 : (0 : ℤ) ≤ mathRound ((norm360 lon - (ratFloor (norm360 lon / 30) : ℚ) * 30) * 100) := by
      simp only [mathRound, ratFloor_eq]
      apply Int.floor_nonneg.mpr
      nlinarith
    have h0q : (0 : ℚ) ≤ (mathRound ((norm360 lon - (ratFloor (norm360 lon / 30) : ℚ) * 30) * 100) : ℚ) := by
      exact_mod_cast h0
    positivity
  · show (mathRound ((norm360 lon - (ratFloor (norm360 lon / 30) : ℚ) * 30) * 100) : ℚ) / 100 ≤ 30
    have h1 : mathRound ((norm360 lon - (ratFloor (norm360 lon / 30) : ℚ) * 30) * 100) ≤ 3000 := by
      simp only [mathRound, ratFloor_eq]
      have hlt2 : (norm360 lon - (⌊norm360 lon / 30⌋ : ℚ) * 30) * 100 + 1 / 2 <
          ((3001 : ℤ) : ℚ) := by
        push_cast
        nlinarith
      have hflt := Int.floor_lt.mpr hlt2
      omega
    rw [div_le_iff₀ (by norm_num : (0:ℚ) < 100)]
    calc (mathRound ((norm360 lon - (ratFloor (norm360 lon / 30) : ℚ) * 30) * 100) : ℚ)
        ≤ ((3000 : ℤ) : ℚ) := by exact_mod_cast h1
      _ = 30 * 100 := by norm_num

theorem lonToSignAndDegree_299 :
    lonToSignAndDegree ((29999 : ℚ) / 1000) = ("Aries", 30) := by
  have hn : norm360 ((29999 : ℚ) / 1000) = (29999 : ℚ) / 1000 :=
    norm360_of_bounds _ (by norm_num) (by norm_num)
  have hidx : ratFloor (((29999 : ℚ) / 1000) / 30) = 0 :=
    ratFloor_eval _ 0 (by norm_num) (by norm_num)
  have hround : mathRound ((((29999 : ℚ) / 1000) - ((0 : ℤ) : ℚ) * 30) * 100) = 3000 := by
    rw [mathRound]
    exact ratFloor_eval _ 3000 (by norm_num) (by norm_num)
  rw [lonToSignAndDegree]
  simp only [hn, hidx, hround]
  norm_num [ZODIAC_SIGNS_ARRAY]

/-- Claim C2 counterexample: at geocentric longitude 29.999 the code rounds the
within-sign remainder up to exactly 30.00, so the produced degree is not
strictly below 30 as the claim states. -/
theorem c2_degree_30_counterexample :
    ((getPlanetaryPositionsApprox (fun _ _ => (29999 : ℚ) / 1000) 0).map
      PlanetaryPosition.degree) = [30, 30, 30, 30, 30] ∧ ¬((30 : ℚ) < 30) := by
  have hn : norm360 ((29999 : ℚ) / 1000) = (29999 : ℚ) / 1000 :=
    norm360_of_bounds _ (by norm_num) (by norm_num)
  have hg : ∀ n : String, ∀ t : ℚ,
      geocentricLongitude (fun _ _ => (29999 : ℚ) / 1000) n t = (29999 : ℚ) / 1000 :=
    fun n t => hn
  constructor
  · simp [getPlanetaryPositionsApprox, PLANET_NAMES, hg, lonToSignAndDegree_299]
  · norm_num

theorem jsMod540_eq_normAngleSpec (y : ℚ) (hy : -540 ≤ y) :
    jsMod (y + 540) 360 - 180 = normAngleSpec y := by
  rw [jsMod_of_nonneg _ 360 (by linarith) (by norm_num)]
  have hsplit : (y + 540) / 360 = (y + 180) / 360 + 1 := by ring
  rw [hsplit, Int.floor_add_one, normAngleSpec]
  push_cast
  ring

/-- Claim C4: for every planet and date, the retrograde flag in the returned
positions equals the isRetrograde test for that planet, and that test is true
exactly when the signed one-day longitude delta, normalized into the half-open
interval from -180 to 180, is negative (and that normalization indeed lands in
that interval). -/
theorem retrograde_iff_negative_delta (lonRaw : LonRaw) (d : ℚ) :
    ((getPlanetaryPositionsApprox lonRaw d).map fun p => (p.planet, p.retrograde)) =
      PLANET_NAMES.map (fun n => (n, isRetrograde lonRaw n d)) ∧
    (∀ planet : String,
      (isRetrograde lonRaw planet d = true ↔
        normAngleSpec (geocentricLongitude lonRaw planet (d + DAY_MS) -
          geocentricLongitude lonRaw planet d) < 0)) ∧
    (∀ x : ℚ, -180 ≤ normAngleSpec x ∧ normAngleSpec x < 180) := by
  refine ⟨by simp [getPlanetaryPositionsApprox, PLANET_NAMES], ?_, ?_⟩
  · intro planet
    rw [isRetrograde]
    have h1 := norm360_bounds (lonRaw planet d)
    have h2 := norm360_bounds (lonRaw planet (d + DAY_MS))
    have hkey := jsMod540_eq_normAngleSpec
      (geocentricLongitude lonRaw planet (d + DAY_MS) -
        geocentricLongitude lonRaw planet d)
      (by
        rw [geocentricLongitude, geocentricLongitude]
        linarith [h1.2, h2.1])
    rw [decide_eq_true_iff, hkey]
  · intro x
    rw [normAngleSpec]
    have hfl : (⌊(x + 180) / 360⌋ : ℚ) ≤ (x + 180) / 360 := Int.floor_le _
    have hfu : (x + 180) / 360 < ⌊(x + 180) / 360⌋ + 1 := Int.lt_floor_add_one _
    have hml := mul_le_mul_of_nonneg_left hfl (by norm_num : (0:ℚ) ≤ 360)
    have hmu := mul_lt_mul_of_pos_left hfu (by norm_num : (0:ℚ) < 360)
    rw [mul_div_cancel₀ (x + 180) (by norm_num : (360:ℚ) ≠ 0)] at hml hmu
    constructor <;> [linarith; nlinarith]

/-! ### Claim theorems: sign-candidate generation (C3, C9) -/

/-- Claim C3 counterexample: the label "aries - taurus" contains no word cusp, so
normalizeSignForDaily does not flag it as a cusp: no "Aries-Taurus Cusp" candidate
is produced and the component signs are appended even without the permissive
fallback.  The claimed list is therefore wrong for this input. -/
theorem buildSignAttempts_counterexample :
    buildSignAttemptsForDaily "aries - taurus" false = ["Aries-Taurus", "Aries", "Taurus"] ∧
    buildSignAttemptsForDaily "aries - taurus" false ≠ ["Aries-Taurus Cusp", "Aries-Taurus"] := by
  constructor
  · decide
  · decide

/-- Claim C3 (amended form): for the cusp-worded label "aries - taurus cusp" the
non-permissive candidates are exactly the claimed pair and the permissive setting
appends the two component signs; for the input "aries - taurus" itself (which has
no word cusp) both settings yield the compound form followed by the components. -/
theorem buildSignAttempts_lists :
    buildSignAttemptsForDaily "aries - taurus cusp" false =
      ["Aries-Taurus Cusp", "Aries-Taurus"] ∧
    buildSignAttemptsForDaily "aries - taurus cusp" true =
      ["Aries-Taurus Cusp", "Aries-Taurus", "Aries", "Taurus"] ∧
    buildSignAttemptsForDaily "aries - taurus" false = ["Aries-Taurus", "Aries", "Taurus"] ∧
    buildSignAttemptsForDaily "aries - taurus" true = ["Aries-Taurus", "Aries", "Taurus"] := by
  refine ⟨by decide, by decide, by decide, by decide⟩

/-- The sign labels the application uses: the twelve zodiac signs and the twelve
adjacent cusp names. -/
def CUSP_LABELS : List String :=
  ["Aries-Taurus Cusp", "Taurus-Gemini Cusp", "Gemini-Cancer Cusp", "Cancer-Leo Cusp",
   "Leo-Virgo Cusp", "Virgo-Libra Cusp", "Libra-Scorpio Cusp", "Scorpio-Sagittarius Cusp",
   "Sagittarius-Capricorn Cusp", "Capricorn-Aquarius Cusp", "Aquarius-Pisces Cusp",
   "Pisces-Aries Cusp"]

def STANDARD_SIGN_LABELS : List String := ZODIAC_SIGNS_ARRAY ++ CUSP_LABELS

/-- Claim C9 counterexample: for the label "cuspcusp" (whose trailing cusp is
stripped although the word-bounded cusp test is false) the candidate list is
["Cusp"], but regenerating from that first candidate yields [" Cusp"], so
candidate generation is not idempotent under re-normalization. -/
theorem buildSignAttempts_not_idempotent :
    buildSignAttemptsForDaily "cuspcusp" false = ["Cusp"] ∧
    buildSignAttemptsForDaily
      (List.headD (buildSignAttemptsForDaily "cuspcusp" false) "cuspcusp") false =
      [" Cusp"] ∧
    ([" Cusp"] : List String) ≠ ["Cusp"] := by
  refine ⟨by decide, by decide, by decide⟩

/-- Claim C9 (amended form): candidate generation is idempotent under
re-normalization for the application's standard sign labels (the twelve signs and
the twelve cusp names), for either fallback setting: regenerating from the first
candidate reproduces the original candidate list. -/
theorem buildSignAttempts_idempotent_standard (label : String)
    (hl : label ∈ STANDARD_SIGN_LABELS) (fb : Bool) :
    buildSignAttemptsForDaily (List.headD (buildSignAttemptsForDaily label fb) label) fb =
      buildSignAttemptsForDaily label fb := by
  fin_cases hl <;> cases fb <;> decide

/-- Claim C9 witness: the amended idempotence theorem applied to the concrete
label "Aries-Taurus Cusp" with the fallback disabled. -/
theorem buildSignAttempts_idempotent_witness :
    ("Aries-Taurus Cusp" ∈ STANDARD_SIGN_LABELS) ∧
    buildSignAttemptsForDaily
      (List.headD (buildSignAttemptsForDaily "Aries-Taurus Cusp" false) "Aries-Taurus Cusp")
      false = buildSignAttemptsForDaily "Aries-Taurus Cusp" false :=
  ⟨by decide, buildSignAttempts_idempotent_standard "Aries-Taurus Cusp" (by decide) false⟩

/-! ### Claim theorems: text sanitization (C5, C6) -/

theorem joinLines_splitLines (s : String) : joinLines (splitLines s) = s := by
  rw [joinLines, splitLines, splitStr, joinStr, List.map_map]
  have hmaps : (String.data ∘ String.mk) = @id (List Char) := rfl
  rw [hmaps, List.map_id]
  rw [joinWith_splitOnChar, mk_data]

theorem mem_splitLines_no_newline (t l : String) (h : l ∈ splitLines t) :
    ('\n') ∉ l.data := by
  rw [splitLines, splitStr] at h
  obtain ⟨piece, hmem, hpe⟩ := List.mem_map.mp h
  have : l.data = piece := by rw [← hpe]
  rw [this]
  exact not_mem_of_mem_splitOnChar '\n' t.data piece hmem

theorem splitLines_joinLines (ps : List String) (hne : ps ≠ [])
    (h : ∀ p ∈ ps, ('\n') ∉ p.data) : splitLines (joinLines ps) = ps := by
  rw [splitLines, joinLines, splitStr, joinStr]
  have hdata : (String.mk (joinWith '\n' (ps.map String.data))).data =
      joinWith '\n' (ps.map String.data) := rfl
  rw [hdata, splitOnChar_joinWith '\n' (ps.map String.data)
    (fun hmap => hne (List.map_eq_nil_iff.mp hmap))
    (fun p hp => by
      obtain ⟨q, hq, hqe⟩ := List.mem_map.mp hp
      rw [← hqe]
      exact h q hq)]
  rw [List.map_map]
  have hid : (String.mk ∘ String.data) = @id String := by
    funext q
    exact mk_data q
  rw [hid, List.map_id]

theorem stripHalloween_of_no_marker (s : String)
    (h : ∀ l ∈ splitLines s, lineHasMarker l = false) :
    stripHalloweenLines s = jsTrim s := by
  rw [stripHalloweenLines]
  by_cases hs : s = ""
  · rw [if_pos hs, hs]
    rfl
  · rw [if_neg hs]
    have hf : (splitLines s).filter (fun l => !lineHasMarker l) = splitLines s :=
      List.filter_eq_self.mpr fun a ha => by rw [h a ha]; rfl
    rw [hf, joinLines_splitLines]

/-- Claim C6 counterexample: on the marker-free text " x" the sanitizer returns
"x" while dash normalization alone leaves " x" unchanged: the trailing trim of
the sanitizer changes the text beyond dash replacement. -/
theorem sanitize_trims_counterexample :
    sanitizeUserFacingText " x" = "x" ∧
    normalizeDashesToHyphen " x" = " x" ∧
    ("x" : String) ≠ " x" := by
  refine ⟨by decide, by decide, by decide⟩

/-- Claim C6 (amended form): for every text none of whose lines contains a
denylisted marker, sanitizeUserFacingText returns the dash-normalized text with
leading and trailing whitespace additionally trimmed. -/
theorem sanitize_no_marker_dash_only (t : String)
    (h : ∀ l ∈ splitLines (normalizeDashesToHyphen t), lineHasMarker l = false) :
    sanitizeUserFacingText t = jsTrim (normalizeDashesToHyphen t) := by
  rw [sanitizeUserFacingText, stripHalloween_of_no_marker _ h, jsTrim_idem]

/-- Claim C6 witness: the amended theorem applied to the marker-free text
"a(em dash)b  ", whose sanitization is dash normalization plus the end trim. -/
theorem sanitize_no_marker_witness :
    (∀ l ∈ splitLines (normalizeDashesToHyphen "a—b  "), lineHasMarker l = false) ∧
    sanitizeUserFacingText "a—b  " = jsTrim (normalizeDashesToHyphen "a—b  ") :=
  ⟨by decide, sanitize_no_marker_dash_only "a—b  " (by decide)⟩

/-- Claim C5 counterexample: for the text " hi" followed by a pumpkin line, the
sanitizer yields "hi": the marker line is removed, but the surviving line " hi"
is not preserved verbatim (the final trim strips its leading space), so
sanitization does not preserve every non-marker line exactly. -/
theorem stripHalloween_counterexample :
    stripHalloweenLines " hi\npumpkin pie" = "hi" ∧
    splitLines (stripHalloweenLines " hi\npumpkin pie") = ["hi"] ∧
    ((splitLines " hi\npumpkin pie").filter fun l => !lineHasMarker l) = [" hi"] ∧
    (["hi"] : List String) ≠ [" hi"] := by
  refine ⟨by decide, by decide, by decide, by decide⟩

/-- Claim C5 (amended form): sanitization removes exactly the marker-containing
lines and preserves every other line whenever the kept text is stable under the
final end-trim and at least one line survives; and every row returned by
getDailyForecast, from the cache-hit path or the fresh-fetch path alike, has its
user-facing fields produced by sanitizeUserFacingText. -/
theorem stripHalloween_exact_lines :
    (∀ t : String,
      ((splitLines t).filter fun l => !lineHasMarker l) ≠ [] →
      jsTrim (joinLines ((splitLines t).filter fun l => !lineHasMarker l)) =
        joinLines ((splitLines t).filter fun l => !lineHasMarker l) →
      splitLines (stripHalloweenLines t) =
        ((splitLines t).filter fun l => !lineHasMarker l)) ∧
    (∀ (cache : Cache) (store : Store) (dailyAnchors : List String)
        (signIn hemisphereIn : String) (opts : DailyOpts) (r : DailyRow),
      getDailyForecast cache store dailyAnchors signIn hemisphereIn opts = some r →
      ∃ r0, r = sanitizeRowFields r0) := by
  constructor
  · intro t hne hstable
    by_cases ht : t = ""
    · rw [ht]
      decide
    · rw [stripHalloweenLines, if_neg ht, hstable]
      exact splitLines_joinLines _ hne fun p hp =>
        mem_splitLines_no_newline t p (List.mem_filter.mp hp).1
  · intro cache store dailyAnchors signIn hemisphereIn opts r h
    exact getDailyForecast_sanitized cache store dailyAnchors signIn hemisphereIn opts r h

/-- A one-row store used by the C5 witness. -/
def exStoreC5 : Store := fun date hemi =>
  if date = "2025-03-01" && hemi = "Northern" then
    { data := some [{ sign := "Aries", hemisphere := "Northern", date := "2025-03-01",
                      daily_horoscope := some "good day\npumpkin spice",
                      affirmation := some "be well",
                      deeper_insight := none }],
      error := none }
  else { data := some [], error := none }

/-- The sanitized row the C5 witness run returns. -/
def exCleanC5 : DailyRow :=
  { sign := "Aries", hemisphere := "Northern", date := "2025-03-01",
    daily_horoscope := "good day", affirmation := "be well", deeper_insight := "",
    sourceTable := some "horoscope_cache" }

/-- Claim C5 witness: the exact-line property applied to a concrete two-line text
with a pumpkin line, and the sanitization of a concrete fresh-fetch resolver run. -/
theorem stripHalloween_exact_lines_witness :
    (((splitLines "keep\npumpkin pie").filter fun l => !lineHasMarker l) ≠ [] ∧
     jsTrim (joinLines ((splitLines "keep\npumpkin pie").filter fun l => !lineHasMarker l)) =
       joinLines ((splitLines "keep\npumpkin pie").filter fun l => !lineHasMarker l) ∧
     splitLines (stripHalloweenLines "keep\npumpkin pie") =
       ((splitLines "keep\npumpkin pie").filter fun l => !lineHasMarker l)) ∧
    (getDailyForecast (fun _ => none) exStoreC5 ["2025-03-01"] "Aries" "Northern"
        { useCache := some false } = some exCleanC5 ∧
     ∃ r0, exCleanC5 = sanitizeRowFields r0) :=
  ⟨⟨by decide, by decide,
    stripHalloween_exact_lines.1 "keep\npumpkin pie" (by decide) (by decide)⟩,
   ⟨by decide,
    stripHalloween_exact_lines.2 (fun _ => none) exStoreC5 ["2025-03-01"] "Aries"
      "Northern" { useCache := some false } exCleanC5 (by decide)⟩⟩

/-! ### Claim theorems: anchors and the wrapper (C8, C10) -/

/-- Claim C8: a non-empty explicit forceDate makes the resolver run, cache pass
and store pass alike, with exactly the singleton anchor list containing that
date, whatever the ordinary anchor generation produced. -/
theorem getDailyForecast_forceDate_single (cache : Cache) (store : Store)
    (dailyAnchors : List String) (signIn hemisphereIn : String) (uid : Option String)
    (uc fb : Option Bool) (d : String) (hd : d ≠ "") :
    getDailyForecast cache store dailyAnchors signIn hemisphereIn
      { userId := uid, forceDate := some d, useCache := uc, allowTrueSignFallback := fb } =
    getDailyForecast cache store [d] signIn hemisphereIn
      { userId := uid, forceDate := none, useCache := uc, allowTrueSignFallback := fb } := by
  rw [getDailyForecast, getDailyForecast]
  simp [hd]

/-- Claim C8 witness: the theorem applied at the forced date 2025-01-01 with
ordinary anchors that would otherwise differ. -/
theorem getDailyForecast_forceDate_witness :
    ("2025-01-01" : String) ≠ "" ∧
    getDailyForecast (fun _ => none) (fun _ _ => { data := some [], error := none })
        ["2025-02-02", "2025-02-03"] "Aries" "Northern"
        { userId := none, forceDate := some "2025-01-01", useCache := some false,
          allowTrueSignFallback := none } =
      getDailyForecast (fun _ => none) (fun _ _ => { data := some [], error := none })
        ["2025-01-01"] "Aries" "Northern"
        { userId := none, forceDate := none, useCache := some false,
          allowTrueSignFallback := none } :=
  ⟨by decide,
   getDailyForecast_forceDate_single (fun _ => none)
     (fun _ _ => { data := some [], error := none }) ["2025-02-02", "2025-02-03"]
     "Aries" "Northern" none (some false) none "2025-01-01" (by decide)⟩

theorem getDailyForecast_useCache_false (cache cache2 : Cache) (store : Store)
    (dailyAnchors : List String) (signIn hemisphereIn : String) (uid fd : Option String)
    (fb : Option Bool) :
    getDailyForecast cache store dailyAnchors signIn hemisphereIn
      { userId := uid, forceDate := fd, useCache := some false,
        allowTrueSignFallback := fb } =
    getDailyForecast cache2 store dailyAnchors signIn hemisphereIn
      { userId := uid, forceDate := fd, useCache := some false,
        allowTrueSignFallback := fb } := by
  rw [getDailyForecast, getDailyForecast]
  simp

/-- Claim C10: the wrapper getAccessibleHoroscope always resolves with the cache
disabled (its result is that of a run against the empty cache, so the persistent
cache is never consulted) and enables the permissive true-sign fallback exactly
when the resolved sign label has no word-bounded occurrence of cusp. -/
theorem getAccessibleHoroscope_call (cache : Cache) (store : Store)
    (dailyAnchors : List String) (user : User) (opts : AccessOpts) :
    getAccessibleHoroscope cache store dailyAnchors user opts =
      (getDailyForecast (fun _ => none) store dailyAnchors (accessibleSignLabel user)
        (accessibleHemisphere user)
        { userId := accessibleUserId user, forceDate := opts.forceDate,
          useCache := some false,
          allowTrueSignFallback := some (!hasCuspWord (accessibleSignLabel user)) }).map
        accessiblePost := by
  simp only [getAccessibleHoroscope]
  have hflag : (if !hasCuspWord (accessibleSignLabel user) then true else false) =
      !hasCuspWord (accessibleSignLabel user) := by
    cases hasCuspWord (accessibleSignLabel user) <;> rfl
  rw [hflag]
  rw [getDailyForecast_useCache_false cache (fun _ => none) store dailyAnchors
    (accessibleSignLabel user) (accessibleHemisphere user) (accessibleUserId user)
    opts.forceDate (some (!hasCuspWord (accessibleSignLabel user)))]
  cases getDailyForecast (fun _ => none) store dailyAnchors (accessibleSignLabel user)
    (accessibleHemisphere user)
    { userId := accessibleUserId user, forceDate := opts.forceDate,
      useCache := some false,
      allowTrueSignFallback := some (!hasCuspWord (accessibleSignLabel user)) } <;> rfl

/-! ### Claim theorems: anchor progression and error handling (C1, C7) -/

/-- A store with a non-matching row on the first anchor day and a matching Aries
row on the second, used by the C1 counterexample and witness. -/
def exStoreC1 : Store := fun date _ =>
  if date = "2025-01-01" then
    { data := some [{ sign := "Gemini", hemisphere := "Northern", date := "2025-01-01",
                      daily_horoscope := some "g", affirmation := none,
                      deeper_insight := none }],
      error := none }
  else if date = "2025-01-02" then
    { data := some [{ sign := "Aries", hemisphere := "Northern", date := "2025-01-02",
                      daily_horoscope := some "a", affirmation := none,
                      deeper_insight := none }],
      error := none }
  else { data := some [], error := none }

/-- Claim C1 counterexample: the first anchor returns one row (no error) and no
sign candidate matches it, yet the resolver does not stop with not-found: it
queries the second anchor and returns its matching row. -/
theorem resolver_does_not_stop_on_nonmatching_rows :
    (fetchRowsForDate exStoreC1 "2025-01-01" "Northern").2 = none ∧
    (fetchRowsForDate exStoreC1 "2025-01-01" "Northern").1 ≠ [] ∧
    tryAnchorDb exStoreC1 (buildSignAttemptsForDaily "Aries" false) "Northern"
      "2025-01-01" = none ∧
    (getDailyForecast (fun _ => none) exStoreC1 ["2025-01-01", "2025-01-02"] "Aries"
      "Northern" { useCache := some false }).map DailyRow.date = some "2025-01-02" ∧
    getDailyForecast (fun _ => none) exStoreC1 ["2025-01-01", "2025-01-02"] "Aries"
      "Northern" { useCache := some false } ≠ none := by
  refine ⟨by decide, by decide, by decide, by decide, by decide⟩

/-- Claim C1 (amended form): with the cache missing everywhere, (a) an anchor
with zero rows is skipped and a later anchor with a matching row supplies the
result; (b) an anchor whose fetch succeeds with rows but matches no candidate is
likewise skipped: the resolver proceeds to the remaining anchors rather than
stopping with not-found. -/
theorem resolver_anchor_progression :
    (∀ (cache : Cache) (store : Store) (signIn hemisphereIn : String)
        (uid : Option String) (uc fb : Option Bool) (d1 d2 : String) (r : DailyRow),
      (∀ k, cache k = none) →
      fetchRowsForDate store d1 (hemiToDB hemisphereIn) = ([], none) →
      tryAnchorDb store (buildSignAttemptsForDaily signIn (fb.getD false))
        (hemiToDB hemisphereIn) d2 = some r →
      getDailyForecast cache store [d1, d2] signIn hemisphereIn
        { userId := uid, forceDate := none, useCache := uc,
          allowTrueSignFallback := fb } = some r) ∧
    (∀ (cache : Cache) (store : Store) (signIn hemisphereIn : String)
        (uid : Option String) (uc fb : Option Bool) (d1 : String) (rest : List String),
      (∀ k, cache k = none) →
      (fetchRowsForDate store d1 (hemiToDB hemisphereIn)).2 = none →
      (fetchRowsForDate store d1 (hemiToDB hemisphereIn)).1 ≠ [] →
      tryAnchorDb store (buildSignAttemptsForDaily signIn (fb.getD false))
        (hemiToDB hemisphereIn) d1 = none →
      getDailyForecast cache store (d1 :: rest) signIn hemisphereIn
        { userId := uid, forceDate := none, useCache := uc,
          allowTrueSignFallback := fb } =
      getDailyForecast cache store rest signIn hemisphereIn
        { userId := uid, forceDate := none, useCache := uc,
          allowTrueSignFallback := fb }) := by
  constructor
  · intro cache store signIn hemisphereIn uid uc fb d1 d2 r hc h1 h2
    rw [getDailyForecast_eq_dbPass cache store [d1, d2] signIn hemisphereIn uid uc fb hc]
    rw [dbPass_cons, tryAnchorDb_of_no_rows store _ _ _ h1]
    show dbPass store (buildSignAttemptsForDaily signIn (fb.getD false))
      (hemiToDB hemisphereIn) [d2] = some r
    rw [dbPass_cons, h2]
  · intro cache store signIn hemisphereIn uid uc fb d1 rest hc herr hne hnone
    rw [getDailyForecast_eq_dbPass cache store (d1 :: rest) signIn hemisphereIn uid uc fb hc,
      getDailyForecast_eq_dbPass cache store rest signIn hemisphereIn uid uc fb hc,
      dbPass_cons, hnone]

/-- A store with zero rows on the first anchor day and a matching Aries row on
the second, used by the C1 witness. -/
def exStoreC1w : Store := fun date _ =>
  if date = "2025-01-02" then
    { data := some [{ sign := "Aries", hemisphere := "Northern", date := "2025-01-02",
                      daily_horoscope := some "a", affirmation := none,
                      deeper_insight := none }],
      error := none }
  else { data := some [], error := none }

/-- The sanitized row the C1 witness run returns. -/
def exCleanC1 : DailyRow :=
  { sign := "Aries", hemisphere := "Northern", date := "2025-01-02",
    daily_horoscope := "a", affirmation := "", deeper_insight := "",
    sourceTable := some "horoscope_cache" }

/-- Claim C1 witness: both parts of the amended anchor-progression theorem
instantiated at concrete stores and anchors. -/
theorem resolver_anchor_progression_witness :
    (fetchRowsForDate exStoreC1w "2025-01-01" (hemiToDB "Northern") = ([], none) ∧
     tryAnchorDb exStoreC1w (buildSignAttemptsForDaily "Aries" false)
       (hemiToDB "Northern") "2025-01-02" = some exCleanC1 ∧
     getDailyForecast (fun _ => none) exStoreC1w ["2025-01-01", "2025-01-02"] "Aries"
       "Northern" { userId := none, forceDate := none, useCache := none, allowTrueSignFallback := none } = some exCleanC1) ∧
    ((fetchRowsForDate exStoreC1 "2025-01-01" (hemiToDB "Northern")).2 = none ∧
     (fetchRowsForDate exStoreC1 "2025-01-01" (hemiToDB "Northern")).1 ≠ [] ∧
     tryAnchorDb exStoreC1 (buildSignAttemptsForDaily "Aries" false)
       (hemiToDB "Northern") "2025-01-01" = none ∧
     getDailyForecast (fun _ => none) exStoreC1 ["2025-01-01", "2025-01-02"] "Aries"
       "Northern" { userId := none, forceDate := none, useCache := none, allowTrueSignFallback := none } =
     getDailyForecast (fun _ => none) exStoreC1 ["2025-01-02"] "Aries" "Northern"
       { userId := none, forceDate := none, useCache := none, allowTrueSignFallback := none }) :=
  ⟨⟨by decide, by decide,
    resolver_anchor_progression.1 (fun _ => none) exStoreC1w "Aries" "Northern" none
      none none "2025-01-01" "2025-01-02" exCleanC1 (fun _ => rfl) (by decide)
      (by decide)⟩,
   ⟨by decide, by decide, by decide,
    resolver_anchor_progression.2 (fun _ => none) exStoreC1 "Aries" "Northern" none
      none none "2025-01-01" ["2025-01-02"] (fun _ => rfl) (by decide) (by decide)
      (by decide)⟩⟩

/-- Claim C7: a store error for an anchor day makes the resolver move on to the
next anchor exactly as a zero-row anchor does, and exhausting every anchor
without a match returns the normal not-found value none rather than an error. -/
theorem resolver_error_handling :
    (∀ (cache : Cache) (store : Store) (signIn hemisphereIn : String)
        (uid : Option String) (uc fb : Option Bool) (d1 e : String)
        (rest : List String),
      (∀ k, cache k = none) →
      (store d1 (hemiToDB hemisphereIn)).error = some e →
      getDailyForecast cache store (d1 :: rest) signIn hemisphereIn
        { userId := uid, forceDate := none, useCache := uc,
          allowTrueSignFallback := fb } =
      getDailyForecast cache store rest signIn hemisphereIn
        { userId := uid, forceDate := none, useCache := uc,
          allowTrueSignFallback := fb }) ∧
    (∀ (cache : Cache) (store : Store) (signIn hemisphereIn : String)
        (uid : Option String) (uc fb : Option Bool) (anchors : List String),
      (∀ k, cache k = none) →
      (∀ a ∈ anchors, tryAnchorDb store (buildSignAttemptsForDaily signIn (fb.getD false))
        (hemiToDB hemisphereIn) a = none) →
      getDailyForecast cache store anchors signIn hemisphereIn
        { userId := uid, forceDate := none, useCache := uc,
          allowTrueSignFallback := fb } = none) := by
  constructor
  · intro cache store signIn hemisphereIn uid uc fb d1 e rest hc herr
    rw [getDailyForecast_eq_dbPass cache store (d1 :: rest) signIn hemisphereIn uid uc fb hc,
      getDailyForecast_eq_dbPass cache store rest signIn hemisphereIn uid uc fb hc,
      dbPass_cons, tryAnchorDb_of_error store _ _ _ e herr]
  · intro cache store signIn hemisphereIn uid uc fb anchors hc hall
    rw [getDailyForecast_eq_dbPass cache store anchors signIn hemisphereIn uid uc fb hc]
    exact findSome?_eq_none_of_all _ anchors hall

/-- A store that fails with an error on the first anchor day and has no rows
elsewhere, used by the C7 witness. -/
def exStoreC7 : Store := fun date _ =>
  if date = "2025-01-01" then { data := none, error := some "boom" }
  else { data := some [], error := none }

/-- Claim C7 witness: the error-skipping part applied to a store erroring on the
first anchor, and the exhaustion part applied to anchors with no matches. -/
theorem resolver_error_handling_witness :
    ((exStoreC7 "2025-01-01" (hemiToDB "Northern")).error = some "boom" ∧
     getDailyForecast (fun _ => none) exStoreC7 ["2025-01-01", "2025-01-02"] "Aries"
       "Northern" { userId := none, forceDate := none, useCache := none, allowTrueSignFallback := none } =
     getDailyForecast (fun _ => none) exStoreC7 ["2025-01-02"] "Aries" "Northern"
       { userId := none, forceDate := none, useCache := none, allowTrueSignFallback := none }) ∧
    ((∀ a ∈ (["2025-01-01", "2025-01-02"] : List String),
        tryAnchorDb exStoreC7 (buildSignAttemptsForDaily "Aries" false)
          (hemiToDB "Northern") a = none) ∧
     getDailyForecast (fun _ => none) exStoreC7 ["2025-01-01", "2025-01-02"] "Aries"
       "Northern" { userId := none, forceDate := none, useCache := none, allowTrueSignFallback := none } = none) :=
  ⟨⟨by decide,
    resolver_error_handling.1 (fun _ => none) exStoreC7 "Aries" "Northern" none none
      none "2025-01-01" "boom" ["2025-01-02"] (fun _ => rfl) (by decide)⟩,
   ⟨by decide,
    resolver_error_handling.2 (fun _ => none) exStoreC7 "Aries" "Northern" none none
      none ["2025-01-01", "2025-01-02"] (fun _ => rfl) (by decide)⟩⟩
